import Mathlib

/-!
# Verification of the simplesite session / transaction / form core

A shallow embedding of the request-scoped core of `tamasd/simplesite`:
the key-value store (`keyvalue`), the session middleware (`session`),
the database transaction middleware (`database`), the form pipeline
(`form`), the entity loader (`page`), the post persistence
(`apps/post`) and the random-hex utility (`util`).

Modelling conventions:
* Go's `crypto/rand` reader is a parameter `rb : Nat → Nat` giving the
  i-th random byte read (Go bytes are below 256; nibble extraction in
  the hex encoder uses `% 16`, which agrees with Go's `b >> 4` /
  `b & 0x0f` on byte values).
* The Redis-backed key-value store is modelled as an association list
  with the contract of `keyvalue.Store`: a missing key reads as the
  empty string with no error (`Redis.Get` maps `redis.Nil` to `"", nil`).
* Stateful request handling is explicit state passing; fallible Go
  calls return `Option`/`Except` or carry a success flag.
-/

namespace Simplesite

/-! ## util.RandomHexString (`util/util.go`) -/

/-- The sixteen lowercase hexadecimal digits, in encoding order
(Go's `encoding/hex` `hextable`). -/
def decimalChars : List Char :=
  ['0', '1', '2', '3', '4', '5', '6', '7', '8', '9']

def lowerAlphaHexChars : List Char :=
  ['a', 'b', 'c', 'd', 'e', 'f']

def hexChars : List Char := decimalChars ++ lowerAlphaHexChars

/-- One hex digit; indices are always below 16 where this is used. -/
def hexDigit (n : Nat) : Char := hexChars.getD n '0'

/-- `encoding/hex` encodes one byte as two lowercase digits: high nibble
then low nibble. -/
def byteToHex (b : Nat) : List Char := [hexDigit (b / 16 % 16), hexDigit (b % 16)]

/-- `hex.EncodeToString` over a byte sequence. -/
def hexEncode (bytes : List Nat) : List Char := (bytes.map byteToHex).flatten

/-- `util.RandomHexString(length)`: read `length/2` random bytes (one more
when `length` is odd), hex-encode them, truncate to `length` characters.
`rb i` is the i-th byte `io.ReadFull(rand.Reader, buf)` fills in. -/
def randomHexString (rb : Nat → Nat) (length : Nat) : String :=
  let buflen := length / 2 + (if length % 2 = 1 then 1 else 0)
  String.mk ((hexEncode ((List.range buflen).map rb)).take length)

theorem hexDigit_mem (n : Nat) : hexDigit n ∈ hexChars := by
  unfold hexDigit
  rcases Nat.lt_or_ge n 16 with h | h
  · interval_cases n <;> decide
  · rw [List.getD_eq_default]
    · decide
    · exact h

theorem hexEncode_length (bytes : List Nat) :
    (hexEncode bytes).length = 2 * bytes.length := by
  induction bytes with
  | nil => rfl
  | cons b tl ih =>
    simp only [hexEncode, List.map_cons, List.flatten_cons, List.length_append,
      byteToHex, List.length_cons, List.length_nil] at ih ⊢
    omega

theorem mem_hexChars_of_mem_hexEncode {bytes : List Nat} {c : Char}
    (h : c ∈ hexEncode bytes) : c ∈ hexChars := by
  induction bytes with
  | nil => simp [hexEncode] at h
  | cons b tl ih =>
    rw [hexEncode, List.map_cons, List.flatten_cons, List.mem_append] at h
    rcases h with h | h
    · simp only [byteToHex, List.mem_cons, List.not_mem_nil, or_false] at h
      rcases h with h | h <;> subst h <;> exact hexDigit_mem _
    · exact ih h

theorem randomHexString_length (rb : Nat → Nat) (n : Nat) :
    (randomHexString rb n).length = n := by
  have hbuf : n ≤ 2 * (n / 2 + (if n % 2 = 1 then 1 else 0)) := by
    rcases Nat.mod_two_eq_zero_or_one n with h | h <;> simp [h] <;> omega
  simp only [randomHexString, String.length, List.length_take, hexEncode_length,
    List.length_map, List.length_range]
  omega

theorem randomHexString_mem_hexChars (rb : Nat → Nat) (n : Nat) :
    ∀ c ∈ (randomHexString rb n).data, c ∈ hexChars := by
  intro c hc
  simp only [randomHexString] at hc
  exact mem_hexChars_of_mem_hexEncode (List.take_subset _ _ hc)

/-- C10: for every non-negative length `n`, `util.RandomHexString(n)`
returns a string of length exactly `n` made only of lowercase hexadecimal
digits — including odd and zero lengths — for every state of the random
source. -/
theorem randomHexString_spec (rb : Nat → Nat) (n : Nat) :
    (randomHexString rb n).length = n ∧
    ∀ c ∈ (randomHexString rb n).data, c ∈ hexChars :=
  ⟨randomHexString_length rb n, randomHexString_mem_hexChars rb n⟩

/-! ## UUIDs (`satori/go.uuid`) and session ids (`session` package) -/

/-- A `uuid.UUID` is 16 bytes; `uuid.Nil` is all zeroes. -/
structure UUID where
  bytes : List Nat
deriving DecidableEq

def uuidNil : UUID := ⟨List.replicate 16 0⟩

/-- `uuid.UUID.String()`: canonical form, hex groups of 4-2-2-2-6 bytes
joined by hyphens. -/
def uuidString (u : UUID) : String :=
  String.mk (hexEncode (u.bytes.take 4) ++ '-' ::
    (hexEncode ((u.bytes.drop 4).take 2) ++ '-' ::
      (hexEncode ((u.bytes.drop 6).take 2) ++ '-' ::
        (hexEncode ((u.bytes.drop 8).take 2) ++ '-' ::
          hexEncode (u.bytes.drop 10)))))

/-- `session.GenerateSid`: the user id's string form, a colon, then 32
random hex characters (`sidLength`). -/
def generateSid (rb : Nat → Nat) (id : UUID) : String :=
  uuidString id ++ ":" ++ randomHexString rb 32

/-- `session.GenerateCSRFToken`: 64 random hex characters (`csrfLength`). -/
def generateCSRFToken (rb : Nat → Nat) : String :=
  randomHexString rb 64

/-- The spec's observable on a session id: the substring before the first
colon (the user-identity part of the id). -/
def prefixBeforeColon (s : String) : String :=
  String.mk (s.data.takeWhile (fun c => c != ':'))

theorem string_data_append (s t : String) : (s ++ t).data = s.data ++ t.data := by
  cases s; cases t; rfl

theorem string_mk_data (s : String) : String.mk s.data = s := by
  cases s; rfl

theorem string_data_mk (l : List Char) : (String.mk l).data = l := rfl

theorem takeWhile_append_cons {p : Char → Bool} {l₁ : List Char}
    (h : ∀ c ∈ l₁, p c = true) (c : Char) (hc : p c = false) (l₂ : List Char) :
    (l₁ ++ c :: l₂).takeWhile p = l₁ := by
  induction l₁ with
  | nil => simp [List.takeWhile_cons, hc]
  | cons a tl ih =>
    have ha := h a (List.mem_cons_self a tl)
    simp only [List.cons_append, List.takeWhile_cons, ha, ite_true, List.cons.injEq]
    exact ⟨trivial, ih fun x hx => h x (List.mem_cons_of_mem a hx)⟩

theorem ne_colon_of_mem_hexChars {c : Char} (h : c ∈ hexChars) :
    (c != ':') = true := by
  revert c
  decide

theorem uuidString_no_colon (u : UUID) :
    ∀ c ∈ (uuidString u).data, (c != ':') = true := by
  intro c hc
  simp only [uuidString, string_data_mk, List.mem_append, List.mem_cons] at hc
  have hyph : (('-' : Char) != ':') = true := by decide
  rcases hc with h | h | h | h | h | h | h | h | h
  all_goals first
    | exact ne_colon_of_mem_hexChars (mem_hexChars_of_mem_hexEncode h)
    | (subst h; exact hyph)

theorem generateSid_data (rb : Nat → Nat) (id : UUID) :
    (generateSid rb id).data
      = (uuidString id).data ++ ':' :: (randomHexString rb 32).data := by
  unfold generateSid
  rw [string_data_append, string_data_append, List.append_assoc]
  rfl

theorem generateSid_ne_empty (rb : Nat → Nat) (id : UUID) :
    generateSid rb id ≠ "" := by
  intro h
  have hdata := generateSid_data rb id
  rw [h] at hdata
  simp at hdata

/-- The user-identity part of a freshly minted session id is exactly the
string form of the identity it was minted for. -/
theorem prefixBeforeColon_generateSid (rb : Nat → Nat) (id : UUID) :
    prefixBeforeColon (generateSid rb id) = uuidString id := by
  unfold prefixBeforeColon
  rw [generateSid_data, takeWhile_append_cons (uuidString_no_colon id) ':' (by decide),
    string_mk_data]

/-! ## Session objects and the session middleware (`session` package) -/

/-- `session.Session`: the payload stored (as JSON) in the key-value store
under the session id. -/
structure Session where
  ID : UUID
  CSRFToken : String
deriving DecidableEq

/-- Go's `&Session{}`: zero value, nil user id, empty CSRF token. -/
def emptySession : Session := ⟨uuidNil, ""⟩

/-- The session key-value store. The Go middleware serialises a `Session`
to JSON on save and parses it on load; since that round-trips, the model
stores the `Session` value itself. A missing key is the store contract's
empty payload (`sessdata == ""` in `Middleware.load`). -/
abbrev SessionStore := List (String × Session)

def sessGet (s : SessionStore) (k : String) : Option Session :=
  match s.find? (fun p => p.1 == k) with
  | some p => some p.2
  | none => none

def sessDelete (s : SessionStore) (k : String) : SessionStore :=
  s.filter (fun p => !(p.1 == k))

def sessSet (s : SessionStore) (k : String) (v : Session) : SessionStore :=
  (k, v) :: sessDelete s k

/-- `session.Middleware.load`: the cookie value (`none` models
`http.ErrNoCookie`, read as an empty cookie). An empty session id mints a
fresh id for the nil user; a non-empty id is looked up, and a store miss
keeps the same id with the session object left at its defaults. The pure
store never errors, so the error exits of `load` (cookie error, store
error, decode error, all returning `""`) do not arise. -/
def mwLoad (store : SessionStore) (cookie : Option String) (rbSid : Nat → Nat) :
    String × Session :=
  let sid := cookie.getD ""
  if sid = "" then (generateSid rbSid uuidNil, emptySession)
  else
    match sessGet store sid with
    | none => (sid, emptySession)
    | some sess => (sid, sess)

/-- What a request sees after `session.Middleware.ServeHTTP`: whether the
pipeline continued (`ok`), the session id and session object bound into
the request context, the `Set-Cookie` value, and the store after the
end-of-request persistence (`store.Set(sid, serialized)`). -/
structure MwResult where
  ok : Bool
  sid : String
  sess : Session
  cookieSet : Option String
  store : SessionStore
deriving DecidableEq

/-- `session.Middleware.ServeHTTP` with an identity downstream handler
(handler-side mutations are modelled separately by `regenerateSession` and
`deleteSession`): load, abort with 500 on an empty sid, ensure a CSRF
token, bind session and sid into the context, set the cookie, run
downstream, then persist the session under its id. -/
def mwServeHTTP (store : SessionStore) (cookie : Option String)
    (rbSid rbCsrf : Nat → Nat) : MwResult :=
  let loaded := mwLoad store cookie rbSid
  if loaded.1 = "" then
    { ok := false, sid := "", sess := loaded.2, cookieSet := none, store := store }
  else
    let sess := if loaded.2.CSRFToken = "" then
        { loaded.2 with CSRFToken := generateCSRFToken rbCsrf }
      else loaded.2
    { ok := true, sid := loaded.1, sess := sess, cookieSet := some loaded.1,
      store := sessSet store loaded.1 sess }

/-- `session.Middleware.RegenerateSession(id)`: delete the old id from the
store, mint a new id bound to `id`, re-issue the cookie, and set the
in-context session's identity and a fresh CSRF token. -/
structure RegenResult where
  sid : String
  sess : Session
  cookieSet : Option String
  store : SessionStore
deriving DecidableEq

def regenerateSession (store : SessionStore) (sid : String) (id : UUID)
    (rbSid rbCsrf : Nat → Nat) : RegenResult :=
  { store := sessDelete store sid,
    sid := generateSid rbSid id,
    cookieSet := some (generateSid rbSid id),
    sess := { ID := id, CSRFToken := generateCSRFToken rbCsrf } }

/-- `session.Middleware.DeleteSession`: delete the id from the store,
expire the cookie, blank the in-context sid. The session object itself is
not touched. -/
def deleteSession (store : SessionStore) (sid : String) (sess : Session) :
    RegenResult :=
  { store := sessDelete store sid,
    sid := "",
    cookieSet := some "",
    sess := sess }

theorem generateCSRFToken_ne_empty (rb : Nat → Nat) : generateCSRFToken rb ≠ "" := by
  intro h
  have hlen := congrArg String.length h
  rw [generateCSRFToken, randomHexString_length] at hlen
  exact absurd hlen (by decide)

/-- What the middleware produces for a request without a session cookie,
in closed form. -/
theorem mwServeHTTP_none_eq (store : SessionStore) (rbSid rbCsrf : Nat → Nat) :
    mwServeHTTP store none rbSid rbCsrf =
      { ok := true, sid := generateSid rbSid uuidNil,
        sess := ⟨uuidNil, generateCSRFToken rbCsrf⟩,
        cookieSet := some (generateSid rbSid uuidNil),
        store := sessSet store (generateSid rbSid uuidNil)
          ⟨uuidNil, generateCSRFToken rbCsrf⟩ } := by
  simp [mwServeHTTP, mwLoad, emptySession, generateSid_ne_empty rbSid uuidNil]

/-- C4: a request with no session cookie gets a freshly minted session id
bound to the nil-user sentinel: the middleware continues, the bound id is
`GenerateSid(uuid.Nil)` whose prefix before the colon is the nil UUID's
string form, the bound session is anonymous with a non-empty CSRF token,
and the response's session cookie carries exactly the bound id. -/
theorem session_no_cookie_mints_anonymous (store : SessionStore)
    (rbSid rbCsrf : Nat → Nat) :
    (mwServeHTTP store none rbSid rbCsrf).ok = true ∧
    (mwServeHTTP store none rbSid rbCsrf).sid = generateSid rbSid uuidNil ∧
    prefixBeforeColon (mwServeHTTP store none rbSid rbCsrf).sid = uuidString uuidNil ∧
    (mwServeHTTP store none rbSid rbCsrf).sess.ID = uuidNil ∧
    (mwServeHTTP store none rbSid rbCsrf).sess.CSRFToken ≠ "" ∧
    (mwServeHTTP store none rbSid rbCsrf).cookieSet =
      some ((mwServeHTTP store none rbSid rbCsrf).sid) := by
  rw [mwServeHTTP_none_eq]
  exact ⟨rfl, rfl, prefixBeforeColon_generateSid rbSid uuidNil, rfl,
    generateCSRFToken_ne_empty rbCsrf, rfl⟩

/-- C3 (counterexample): a request whose cookie carries the session id
"deadbeef:x" while the store has no entry for it (an evicted payload, as
the claim explicitly includes) is bound with the same id but an anonymous
session: the id's prefix "deadbeef" differs from the nil UUID's string
form, so the prefix invariant fails at that point. -/
theorem session_prefix_invariant_cex :
    (mwServeHTTP [] (some "deadbeef:x") (fun _ => 0) (fun _ => 0)).sess.ID = uuidNil ∧
    prefixBeforeColon (mwServeHTTP [] (some "deadbeef:x") (fun _ => 0) (fun _ => 0)).sid ≠
      uuidString ((mwServeHTTP [] (some "deadbeef:x") (fun _ => 0) (fun _ => 0)).sess.ID) := by
  exact ⟨rfl, by decide⟩

/-- C3 (amended): the prefix invariant holds whenever the bound id was
minted by `GenerateSid` for the bound identity: for every fresh id
(anonymous mint on a cookieless request) and for every id issued by
`RegenerateSession`; and it is preserved by a load whose stored payload's
identity matches the cookie id's prefix. It fails only for an id accepted
from a cookie whose payload was evicted (or never stored) under a
non-matching prefix, as the counterexample shows. -/
theorem session_prefix_invariant_amended :
    (∀ rb id, prefixBeforeColon (generateSid rb id) = uuidString id) ∧
    (∀ store rbSid rbCsrf,
      prefixBeforeColon (mwServeHTTP store none rbSid rbCsrf).sid =
        uuidString ((mwServeHTTP store none rbSid rbCsrf).sess.ID)) ∧
    (∀ store sid sess rbSid rbCsrf, some sid ≠ some "" →
      sessGet store sid = some sess →
      prefixBeforeColon sid = uuidString sess.ID →
      prefixBeforeColon (mwServeHTTP store (some sid) rbSid rbCsrf).sid =
        uuidString ((mwServeHTTP store (some sid) rbSid rbCsrf).sess.ID)) ∧
    (∀ store sid id rbSid rbCsrf,
      prefixBeforeColon (regenerateSession store sid id rbSid rbCsrf).sid =
        uuidString ((regenerateSession store sid id rbSid rbCsrf).sess.ID)) := by
  refine ⟨fun rb id => prefixBeforeColon_generateSid rb id, ?_, ?_, ?_⟩
  · intro store rbSid rbCsrf
    rw [mwServeHTTP_none_eq]
    exact prefixBeforeColon_generateSid rbSid uuidNil
  · intro store sid sess rbSid rbCsrf hne hget hpre
    have hsid : ¬ sid = "" := by
      intro h; exact hne (by rw [h])
    simp only [mwServeHTTP, mwLoad, Option.getD_some, if_neg hsid, hget]
    by_cases hc : sess.CSRFToken = "" <;> simp [hc, hpre]
  · intro store sid id rbSid rbCsrf
    exact prefixBeforeColon_generateSid rbSid id

/-! ## The key-value store for form tokens (`keyvalue` package)

The pure model of the Redis-backed `keyvalue.Store` as the `form` package
uses it: a missing key reads as the empty string with no error
(`Redis.Get` maps `redis.Nil` to `("", nil)`), `SetExpiring` overwrites,
`Delete` removes. The pure store never errors, so `form.Submit`'s
store-error exits (422 on a `Get` error inside `validateFormToken`, 500 on
a `Delete` error) do not arise in the model. -/

abbrev KV := List (String × String)

def kvGet (s : KV) (k : String) : String :=
  match s.find? (fun p => p.1 == k) with
  | some p => p.2
  | none => ""

def kvDelete (s : KV) (k : String) : KV :=
  s.filter (fun p => !(p.1 == k))

def kvSet (s : KV) (k v : String) : KV :=
  (k, v) :: kvDelete s k

theorem kvGet_kvDelete_self (s : KV) (k : String) :
    kvGet (kvDelete s k) k = "" := by
  induction s with
  | nil => rfl
  | cons p tl ih =>
    by_cases h : p.1 = k
    · simpa [kvDelete, h] using ih
    · simpa [kvDelete, kvGet, List.find?, h] using ih

theorem kvGet_kvSet_self (s : KV) (k v : String) :
    kvGet (kvSet s k v) k = v := by
  simp [kvSet, kvGet, List.find?]

/-! ## The form pipeline (`form` package) -/

/-- One POST request as `form.Submit` observes it: the Content-Type
header, whether the Go body parser (`ParseMultipartForm` / `ParseForm`)
succeeds on the body, the posted hidden fields `FormID` and `FormToken`,
and whether the tolerant `formam` decode of the posted fields onto the
delegate's data succeeds. -/
structure FormSubmitRequest where
  contentType : String
  bodyOk : Bool
  formID : String
  formToken : String
  decodeOk : Bool
deriving DecidableEq

/-- `form.FormSubmitResult` as returned by a delegate: `form.Redirect` or
`form.Error`. -/
inductive SubmitResultM
  | redirect (path : String)
  | error (message : String)
deriving DecidableEq

/-- `form.Redirect` normalises an empty path to the root. -/
def mkRedirect (path : String) : SubmitResultM :=
  SubmitResultM.redirect (if path = "" then "/" else path)

/-- A form delegate's behaviour on one request: whether `LoadData`
succeeds, the `Validate` result (`none` models a delegate that does not
implement the optional `Validator` capability), and the `Submit` result. -/
structure DelegateBehavior where
  loadOk : Bool
  validate : Option (List String)
  submitResult : SubmitResultM
deriving DecidableEq

/-- `form.maybeValidate`: a delegate without the `Validator` capability
yields nil (no errors). -/
def maybeValidate (d : DelegateBehavior) : List String :=
  d.validate.getD []

/-- The error causes `form.Submit` hands to `respond.Error`. -/
inductive FormError
  | invalidContentType (ct : String)
  | bodyParseFailed
  | loadDataFailed
  | decodeFailed
  | tokenMismatch
deriving DecidableEq

/-- What `form.Submit` writes to the response: an error status, a
redirect (`http.StatusFound`), or a re-rendered form page carrying inline
errors and the regenerated FormID/FormToken pair. -/
inductive FormOutcome
  | httpError (status : Nat) (cause : FormError)
  | redirected (path : String)
  | rendered (errors : List String) (formID formToken : String)
deriving DecidableEq

/-- The observable side effects of one `form.Submit` run, in order. -/
inductive FormEvent
  | evLoadData
  | evDecode
  | evStoreGet (key res : String)
  | evStoreDelete (key : String)
  | evValidate (errs : List String)
  | evSubmit
  | evRollback
  | evStoreSetExpiring (key value : String)
deriving DecidableEq

def isMultipartCT (ct : String) : Bool := ct == "multipart/form-data"

def isUrlEncodedCT (ct : String) : Bool := ct == "application/x-www-form-urlencoded"

/-- `form.parseForm`: multipart and url-encoded bodies are parsed (the
parse itself may fail); any other content type is
`ErrInvalidFormContentType` carrying the header value. -/
def parseFormM (req : FormSubmitRequest) : Except FormError Unit :=
  if isMultipartCT req.contentType then
    if req.bodyOk then Except.ok () else Except.error FormError.bodyParseFailed
  else if isUrlEncodedCT req.contentType then
    if req.bodyOk then Except.ok () else Except.error FormError.bodyParseFailed
  else
    Except.error (FormError.invalidContentType req.contentType)

/-- `form.Form.Submit` over the pure token store, returning the response
outcome, the store afterwards, and the event trace: parse the body (400 on
failure), `LoadData` (404 on failure), decode the posted fields (422 on
failure), validate the FormID/FormToken pair against the store (422 on
mismatch), delete the FormID entry, run `maybeValidate`, and either run
the delegate's `Submit` (redirect, or error with rollback and re-render)
or re-render with the validation errors; every re-render regenerates the
form token under the same FormID (`buildForm` / `regenerateFormToken`)
with the supplied fresh token. -/
def formSubmit (store : KV) (req : FormSubmitRequest) (d : DelegateBehavior)
    (fresh : String) : FormOutcome × KV × List FormEvent :=
  match parseFormM req with
  | Except.error e => (FormOutcome.httpError 400 e, store, [])
  | Except.ok _ =>
    if d.loadOk = false then
      (FormOutcome.httpError 404 FormError.loadDataFailed, store, [FormEvent.evLoadData])
    else if req.decodeOk = false then
      (FormOutcome.httpError 422 FormError.decodeFailed, store,
        [FormEvent.evLoadData, FormEvent.evDecode])
    else if kvGet store req.formID ≠ req.formToken then
      (FormOutcome.httpError 422 FormError.tokenMismatch, store,
        [FormEvent.evLoadData, FormEvent.evDecode,
          FormEvent.evStoreGet req.formID (kvGet store req.formID)])
    else
      let store₁ := kvDelete store req.formID
      let errs := maybeValidate d
      if errs = [] then
        match d.submitResult with
        | SubmitResultM.redirect p =>
          (FormOutcome.redirected p, store₁,
            [FormEvent.evLoadData, FormEvent.evDecode,
              FormEvent.evStoreGet req.formID (kvGet store req.formID),
              FormEvent.evStoreDelete req.formID, FormEvent.evValidate errs,
              FormEvent.evSubmit])
        | SubmitResultM.error msg =>
          (FormOutcome.rendered [msg] req.formID fresh, kvSet store₁ req.formID fresh,
            [FormEvent.evLoadData, FormEvent.evDecode,
              FormEvent.evStoreGet req.formID (kvGet store req.formID),
              FormEvent.evStoreDelete req.formID, FormEvent.evValidate errs,
              FormEvent.evSubmit, FormEvent.evRollback,
              FormEvent.evStoreSetExpiring req.formID fresh])
      else
        (FormOutcome.rendered errs req.formID fresh, kvSet store₁ req.formID fresh,
          [FormEvent.evLoadData, FormEvent.evDecode,
            FormEvent.evStoreGet req.formID (kvGet store req.formID),
            FormEvent.evStoreDelete req.formID, FormEvent.evValidate errs,
            FormEvent.evStoreSetExpiring req.formID fresh])

/-- C7: the body is parsed exactly for the two accepted content types
(the parse result then follows the body parser); for every other
Content-Type, parsing fails with `ErrInvalidFormContentType`, and
`form.Submit` answers 400 with that cause while the event trace stays
empty and the store untouched — no token validation, delegate call or
persistence happens. -/
theorem form_content_type_gate (store : KV) (req : FormSubmitRequest)
    (d : DelegateBehavior) (fresh : String) :
    ((isMultipartCT req.contentType = false ∧ isUrlEncodedCT req.contentType = false) ↔
      parseFormM req = Except.error (FormError.invalidContentType req.contentType)) ∧
    ((isMultipartCT req.contentType = true ∨ isUrlEncodedCT req.contentType = true) →
      parseFormM req =
        (if req.bodyOk then Except.ok () else Except.error FormError.bodyParseFailed)) ∧
    (isMultipartCT req.contentType = false → isUrlEncodedCT req.contentType = false →
      formSubmit store req d fresh =
        (FormOutcome.httpError 400 (FormError.invalidContentType req.contentType),
          store, [])) := by
  by_cases hm : isMultipartCT req.contentType
  · refine ⟨?_, ?_, ?_⟩
    · constructor
      · intro hcon
        rw [hm] at hcon
        exact absurd hcon.1 (by decide)
      · intro h
        rw [parseFormM, if_pos hm] at h
        cases hb : req.bodyOk <;> rw [hb] at h <;> simp at h
    · intro _
      rw [parseFormM, if_pos hm]
    · intro h; exact absurd hm (by simp [h])
  · by_cases hu : isUrlEncodedCT req.contentType
    · refine ⟨?_, ?_, ?_⟩
      · constructor
        · rintro ⟨_, h⟩; exact absurd hu (by simp [h])
        · intro h
          rw [parseFormM, if_neg hm, if_pos hu] at h
          cases hb : req.bodyOk <;> rw [hb] at h <;> simp at h
      · intro _
        rw [parseFormM, if_neg hm, if_pos hu]
      · intro _ h; exact absurd hu (by simp [h])
    · have hp : parseFormM req = Except.error (FormError.invalidContentType req.contentType) := by
        rw [parseFormM, if_neg hm, if_neg hu]
      refine ⟨?_, ?_, ?_⟩
      · simp [hm, hu, hp]
      · intro h
        rcases h with h | h
        · exact absurd h (by simp [hm])
        · exact absurd h (by simp [hu])
      · intro _ _
        rw [formSubmit, hp]

/-- C8: once a submission has passed anti-replay validation, the
delegate's `Submit` runs exactly when delegate validation returned no
errors; a delegate without the `Validator` capability counts as returning
none; a non-empty error list re-renders the form with those errors and
skips `Submit`. -/
theorem form_validate_gates_submit (store : KV) (req : FormSubmitRequest)
    (d : DelegateBehavior) (fresh : String)
    (hp : parseFormM req = Except.ok ())
    (hl : d.loadOk = true) (hd : req.decodeOk = true)
    (hv : kvGet store req.formID = req.formToken) :
    (FormEvent.evSubmit ∈ (formSubmit store req d fresh).2.2 ↔ maybeValidate d = []) ∧
    (d.validate = none → FormEvent.evSubmit ∈ (formSubmit store req d fresh).2.2) ∧
    (maybeValidate d ≠ [] →
      (formSubmit store req d fresh).1 =
        FormOutcome.rendered (maybeValidate d) req.formID fresh ∧
      FormEvent.evSubmit ∉ (formSubmit store req d fresh).2.2) := by
  have hmain : ∀ errs, maybeValidate d = errs →
      (FormEvent.evSubmit ∈ (formSubmit store req d fresh).2.2 ↔ errs = []) ∧
      (errs ≠ [] →
        (formSubmit store req d fresh).1 =
          FormOutcome.rendered errs req.formID fresh ∧
        FormEvent.evSubmit ∉ (formSubmit store req d fresh).2.2) := by
    intro errs herrs
    simp only [formSubmit, hp, hl, hd, hv, herrs, ne_eq, not_true_eq_false, if_false,
      Bool.true_eq_false, ite_false]
    by_cases hval : errs = []
    · cases hsub : d.submitResult <;> simp [hval, hsub]
    · simp [hval]
  refine ⟨(hmain _ rfl).1, ?_, (hmain _ rfl).2⟩
  intro hnone
  exact (hmain _ rfl).1.mpr (by simp [maybeValidate, hnone])

/-- After a submission whose anti-replay validation succeeded, the store
either no longer holds the FormID (redirect path) or holds it with the
freshly regenerated token (every re-render path). -/
theorem formSubmit_consumes_token (store : KV) (req : FormSubmitRequest)
    (d : DelegateBehavior) (fresh : String)
    (hp : parseFormM req = Except.ok ())
    (hl : d.loadOk = true) (hd : req.decodeOk = true)
    (hv : kvGet store req.formID = req.formToken) :
    (formSubmit store req d fresh).2.1 = kvDelete store req.formID ∨
    (formSubmit store req d fresh).2.1 = kvSet (kvDelete store req.formID) req.formID fresh := by
  simp only [formSubmit, hp, hl, hd, hv, ne_eq, not_true_eq_false, if_false,
    Bool.true_eq_false, ite_false]
  by_cases hval : maybeValidate d = []
  · cases hsub : d.submitResult <;> simp [hval, hsub]
  · simp [hval]

/-- C1 (amended): for a pair whose FormToken is non-empty, once one
submission passed anti-replay validation, a second well-formed POST
carrying the same FormID/FormToken pair fails anti-replay validation with
the 422 token-mismatch error — whatever the first submission's delegate
validation and `Submit` did — provided the token regenerated for a
re-render differs from the old one (fresh randomness). -/
theorem form_token_single_use_amended (store : KV) (req₁ req₂ : FormSubmitRequest)
    (d₁ d₂ : DelegateBehavior) (fresh₁ fresh₂ : String)
    (htok : req₁.formToken ≠ "")
    (hfresh : fresh₁ ≠ req₁.formToken)
    (hid : req₂.formID = req₁.formID)
    (htok2 : req₂.formToken = req₁.formToken)
    (hp₁ : parseFormM req₁ = Except.ok ())
    (hl₁ : d₁.loadOk = true) (hd₁ : req₁.decodeOk = true)
    (hv₁ : kvGet store req₁.formID = req₁.formToken)
    (hp₂ : parseFormM req₂ = Except.ok ())
    (hl₂ : d₂.loadOk = true) (hd₂ : req₂.decodeOk = true) :
    (formSubmit (formSubmit store req₁ d₁ fresh₁).2.1 req₂ d₂ fresh₂).1 =
      FormOutcome.httpError 422 FormError.tokenMismatch := by
  have hne : kvGet (formSubmit store req₁ d₁ fresh₁).2.1 req₂.formID ≠ req₂.formToken := by
    rw [hid, htok2]
    rcases formSubmit_consumes_token store req₁ d₁ fresh₁ hp₁ hl₁ hd₁ hv₁ with h | h <;> rw [h]
    · rw [kvGet_kvDelete_self]
      exact fun hcon => htok hcon.symm
    · rw [kvGet_kvSet_self]
      exact hfresh
  revert hne
  generalize (formSubmit store req₁ d₁ fresh₁).2.1 = store2
  intro hne
  simp only [formSubmit, hp₂, hl₂, hd₂]
  simp [hne]

/-- The request of the C1 counterexample: a well-formed POST whose
FormToken is empty and whose FormID is absent from the store. -/
def emptyTokenReq : FormSubmitRequest :=
  ⟨"application/x-www-form-urlencoded", true, "a", "", true⟩

def emptyTokenDelegate : DelegateBehavior :=
  ⟨true, none, SubmitResultM.redirect "/"⟩

/-- C1 (counterexample): a POST with an empty FormToken and an unknown
FormID passes anti-replay validation (the store contract reads a missing
key as the empty string, and `validateFormToken` only compares for
equality), and so does an identical second POST with the very same pair:
both reach the delegate and redirect, neither fails with the
token-mismatch error, refuting at-most-once validation as claimed. -/
theorem form_token_single_use_cex :
    (formSubmit [] emptyTokenReq emptyTokenDelegate "f").1 =
      FormOutcome.redirected "/" ∧
    (formSubmit (formSubmit [] emptyTokenReq emptyTokenDelegate "f").2.1
        emptyTokenReq emptyTokenDelegate "g").1 =
      FormOutcome.redirected "/" :=
  ⟨rfl, rfl⟩

def replayReq : FormSubmitRequest :=
  ⟨"application/x-www-form-urlencoded", true, "a", "t", true⟩

def replayDelegate : DelegateBehavior :=
  ⟨true, none, SubmitResultM.redirect "/"⟩

/-- Witness for the amended C1: with the pair ("a", "t") stored, the
first POST passes validation, and the identical second POST fails with
the 422 token-mismatch error. -/
theorem form_token_single_use_witness :
    (formSubmit (formSubmit [("a", "t")] replayReq replayDelegate "f").2.1
        replayReq replayDelegate "g").1 =
      FormOutcome.httpError 422 FormError.tokenMismatch :=
  form_token_single_use_amended [("a", "t")] replayReq replayReq replayDelegate
    replayDelegate "f" "g" (by decide) (by decide) rfl rfl rfl rfl rfl rfl rfl rfl rfl

def validatingReq : FormSubmitRequest :=
  ⟨"multipart/form-data", true, "b", "t", true⟩

def validatingDelegate : DelegateBehavior :=
  ⟨true, some ["name is required"], SubmitResultM.redirect "/"⟩

/-- Witness for C8: a delegate whose validation reports an error keeps
`Submit` from running and re-renders the form with that error. -/
theorem form_validate_gates_submit_witness :
    (FormEvent.evSubmit ∈
        (formSubmit [("b", "t")] validatingReq validatingDelegate "f").2.2 ↔
      maybeValidate validatingDelegate = []) ∧
    (validatingDelegate.validate = none →
      FormEvent.evSubmit ∈
        (formSubmit [("b", "t")] validatingReq validatingDelegate "f").2.2) ∧
    (maybeValidate validatingDelegate ≠ [] →
      (formSubmit [("b", "t")] validatingReq validatingDelegate "f").1 =
        FormOutcome.rendered (maybeValidate validatingDelegate)
          validatingReq.formID "f" ∧
      FormEvent.evSubmit ∉
        (formSubmit [("b", "t")] validatingReq validatingDelegate "f").2.2) :=
  form_validate_gates_submit [("b", "t")] validatingReq validatingDelegate "f"
    rfl rfl rfl rfl

/-! ## The transaction middleware (`database` package) -/

/-- The lifecycle state of a `database.Transaction` (an `sql.Tx`). -/
inductive TxState
  | active
  | committed
  | rolledBack
deriving DecidableEq

/-- The only transaction-completion error the middleware distinguishes:
`sql.ErrTxDone`, returned by `Commit`/`Rollback` on an already finished
transaction. Driver failures on a live transaction are outside the model
(the middleware would log them; the claim is about `ErrTxDone`). -/
inductive TxErr
  | txDone
deriving DecidableEq

/-- `sql.Tx.Commit`: succeeds on an active transaction, `ErrTxDone` on a
finished one. -/
def txCommit : TxState → TxState × Option TxErr
  | TxState.active => (TxState.committed, none)
  | s => (s, some TxErr.txDone)

/-- `sql.Tx.Rollback`: rolls back an active transaction, `ErrTxDone` on a
finished one. -/
def txRollback : TxState → TxState × Option TxErr
  | TxState.active => (TxState.rolledBack, none)
  | s => (s, some TxErr.txDone)

/-- What downstream handlers can do to the request's transaction. In this
repository the only downstream completion is `database.MaybeRollback`
(called by the form pipeline's `form.Error` result); no handler commits. -/
inductive TxHandlerEffect
  | leaveOpen
  | earlyRollback
deriving DecidableEq

/-- The middleware logs a completion error only when it is non-nil and
not `sql.ErrTxDone` (both the commit branch and the deferred rollback). -/
def swallowTxDone : Option TxErr → List TxErr
  | some e => if e = TxErr.txDone then [] else [e]
  | none => []

/-- One request through `database.TxMiddleware.ServeHTTP` as observed
from outside. -/
structure TxRun where
  finalTx : TxState
  commitCalled : Bool
  rollbackCalled : Bool
  commitErr : Option TxErr
  rollbackErr : Option TxErr
  reported : List TxErr
deriving DecidableEq

/-- `database.TxMiddleware.ServeHTTP`: begin (always succeeds in the
model), register the deferred rollback when `auto`, run downstream
(`effect` is what downstream did to the transaction, `status` the final
response status), then — still when `auto` — commit if the status is
below 400; the deferred rollback runs last, on function exit. Completion
errors equal to `sql.ErrTxDone` are swallowed; others would be logged
(`reported`) without failing the request. -/
def txServeHTTP (auto : Bool) (effect : TxHandlerEffect) (status : Nat) : TxRun :=
  let tx₀ : TxState := match effect with
    | TxHandlerEffect.leaveOpen => TxState.active
    | TxHandlerEffect.earlyRollback => TxState.rolledBack
  if auto then
    let afterCommit : TxState × Option TxErr × Bool :=
      if status < 400 then
        let c := txCommit tx₀
        (c.1, c.2, true)
      else (tx₀, none, false)
    let rb := txRollback afterCommit.1
    { finalTx := rb.1,
      commitCalled := afterCommit.2.2,
      rollbackCalled := true,
      commitErr := afterCommit.2.1,
      rollbackErr := rb.2,
      reported := swallowTxDone afterCommit.2.1 ++ swallowTxDone rb.2 }
  else
    { finalTx := tx₀, commitCalled := false, rollbackCalled := false,
      commitErr := none, rollbackErr := none, reported := [] }

/-- C2 (counterexample): in automatic mode, a request whose downstream
handler already rolled the transaction back (via `database.MaybeRollback`,
as the form pipeline does on a submission error) and whose final status is
200 ends with the transaction rolled back, not committed, although the
status is below 400 — refuting "committed if and only if status < 400".
The commit attempt's `ErrTxDone` is swallowed. -/
theorem tx_commit_iff_status_cex :
    200 < 400 ∧
    (txServeHTTP true TxHandlerEffect.earlyRollback 200).commitCalled = true ∧
    (txServeHTTP true TxHandlerEffect.earlyRollback 200).finalTx ≠ TxState.committed ∧
    (txServeHTTP true TxHandlerEffect.earlyRollback 200).commitErr = some TxErr.txDone ∧
    (txServeHTTP true TxHandlerEffect.earlyRollback 200).reported = [] := by
  decide

/-- C2 (amended): in automatic mode, `Commit` is invoked exactly when the
final status is below 400, and the transaction ends committed exactly when
the status is below 400 and downstream left it open; for every status of
400 or more the transaction ends rolled back and is never committed;
completion errors equal to `sql.ErrTxDone` (in particular the deferred
rollback after a successful commit) are swallowed, never reported. -/
theorem tx_commit_iff_status_amended (effect : TxHandlerEffect) (status : Nat) :
    ((txServeHTTP true effect status).commitCalled = true ↔ status < 400) ∧
    ((txServeHTTP true effect status).finalTx = TxState.committed ↔
      (status < 400 ∧ effect = TxHandlerEffect.leaveOpen)) ∧
    (400 ≤ status → (txServeHTTP true effect status).finalTx = TxState.rolledBack) ∧
    (txServeHTTP true effect status).reported = [] ∧
    ((txServeHTTP true effect status).finalTx = TxState.committed →
      (txServeHTTP true effect status).rollbackErr = some TxErr.txDone) := by
  by_cases hs : status < 400 <;>
    cases effect <;>
      simp [txServeHTTP, txCommit, txRollback, swallowTxDone, hs]

/-! ## The entity loader (`page` package) -/

/-- `page.entityContainer`: the request-scoped memoisation cell. A nil
entity and a nil error are both valid cached values, so both sides are
`Option` (`Option String` standing for Go's `error`). -/
structure EntityContainer (E : Type) where
  loaded : Bool
  entity : Option E
  err : Option String
deriving DecidableEq

/-- The container the middleware installs: nothing loaded yet. -/
def freshContainer (E : Type) : EntityContainer E := ⟨false, none, none⟩

/-- `page.GetEntity` backed by `entityContainer.load`. The state also
counts how many times `EntityLoader.Load` has run; `loader n` is what the
n-th invocation would return, so a re-query could observably differ. -/
def getEntity {E : Type} (loader : Nat → Option E × Option String)
    (s : EntityContainer E × Nat) :
    (Option E × Option String) × (EntityContainer E × Nat) :=
  if s.1.loaded then ((s.1.entity, s.1.err), s)
  else
    let r := loader s.2
    ((r.1, r.2), (⟨true, r.1, r.2⟩, s.2 + 1))

/-- `k` consecutive `GetEntity` calls within one request, collecting each
returned (entity, error) pair. -/
def getEntityN {E : Type} (loader : Nat → Option E × Option String) :
    Nat → EntityContainer E × Nat →
      List (Option E × Option String) × (EntityContainer E × Nat)
  | 0, s => ([], s)
  | k + 1, s =>
    let r := getEntity loader s
    let rest := getEntityN loader k r.2
    (r.1 :: rest.1, rest.2)

theorem getEntityN_loaded {E : Type} (loader : Nat → Option E × Option String)
    (k : Nat) (c : EntityContainer E) (n : Nat) (h : c.loaded = true) :
    getEntityN loader k (c, n) = (List.replicate k (c.entity, c.err), (c, n)) := by
  induction k with
  | zero => rfl
  | succ k ih => simp [getEntityN, getEntity, h, ih, List.replicate]

/-- C6: with the entity-loader middleware installed, any sequence of
`n ≥ 1` `GetEntity` calls in one request runs `EntityLoader.Load` exactly
once, and every call returns the pair the first load produced — whatever
that pair is, including a nil entity and/or a nil error, and even when a
re-query would have returned something else. -/
theorem entity_loader_loads_once {E : Type}
    (loader : Nat → Option E × Option String) (k : Nat) (hk : 1 ≤ k) :
    (getEntityN loader k (freshContainer E, 0)).2.2 = 1 ∧
    (getEntityN loader k (freshContainer E, 0)).1 = List.replicate k (loader 0) := by
  obtain ⟨j, rfl⟩ : ∃ j, k = j + 1 := ⟨k - 1, by omega⟩
  have hfirst : getEntity loader (freshContainer E, 0)
      = (((loader 0).1, (loader 0).2), (⟨true, (loader 0).1, (loader 0).2⟩, 1)) := by
    simp [getEntity, freshContainer]
  rw [getEntityN, hfirst, getEntityN_loaded loader j _ 1 rfl]
  simp [List.replicate]

/-- Witness for C6: two calls with a loader whose second invocation would
return a different entity still both return the first result, and the
loader ran once. -/
theorem entity_loader_loads_once_witness :
    (getEntityN (fun n => if n = 0 then ((some 5 : Option Nat), none)
        else (some 6, some "requeried")) 2 (freshContainer Nat, 0)).2.2 = 1 ∧
    (getEntityN (fun n => if n = 0 then ((some 5 : Option Nat), none)
        else (some 6, some "requeried")) 2 (freshContainer Nat, 0)).1 =
      List.replicate 2 ((fun n => if n = 0 then ((some 5 : Option Nat), none)
        else (some 6, some "requeried")) 0) :=
  entity_loader_loads_once
    (fun n => if n = 0 then ((some 5 : Option Nat), none)
      else (some 6, some "requeried")) 2 (by decide)

/-! ## The prefixing store decorator (`keyvalue.Prefixed`) -/

/-- The `keyvalue.Store` interface over an abstract backing service with
state `σ` and opaque error type `ε`: every operation returns the next
service state together with the operation's result (`Get` yields a value
and an error, the writes yield an optional error; `SetExpiring` takes the
TTL in nanoseconds, Go's `time.Duration`). -/
structure StoreOps (σ ε : Type) where
  get : σ → String → σ × (String × Option ε)
  set : σ → String → String → σ × Option ε
  setExpiring : σ → String → String → Nat → σ × Option ε
  delete : σ → String → σ × Option ε

/-- `keyvalue.Prefixed` / `NewPrefixed`: every operation delegates to the
wrapped store with the prefix prepended to the key. -/
def prefixedStore {σ ε : Type} (s : StoreOps σ ε) (pre : String) : StoreOps σ ε where
  get st key := s.get st (pre ++ key)
  set st key value := s.set st (pre ++ key) value
  setExpiring st key value expires := s.setExpiring st (pre ++ key) value expires
  delete st key := s.delete st (pre ++ key)

/-- C5: each operation of the prefixing decorator returns exactly what the
underlying store's operation returns on the prefixed key — the same next
state, value, TTL handling and error, for every underlying store, prefix,
key, value and TTL. -/
theorem prefixed_store_delegates {σ ε : Type} (s : StoreOps σ ε) (pre : String)
    (st : σ) (key value : String) (expires : Nat) :
    (prefixedStore s pre).get st key = s.get st (pre ++ key) ∧
    (prefixedStore s pre).set st key value = s.set st (pre ++ key) value ∧
    (prefixedStore s pre).setExpiring st key value expires =
      s.setExpiring st (pre ++ key) value expires ∧
    (prefixedStore s pre).delete st key = s.delete st (pre ++ key) :=
  ⟨rfl, rfl, rfl, rfl⟩

/-! ## Post persistence (`apps/post/pages.go`)

Timestamps (`created`, `updated`) are set by `time.Now()`/the database and
play no role in the persistence claims, so they are left out of the
embedding. `Option`'s `none` stands for a failed `conn.Exec` (the wrapped
error `Post.Save`/`PostRevision.Save` return). -/

/-- The `post` entity: `Revision` is the published-revision pointer
(`uuid.Nil` = unpublished, stored as SQL NULL). -/
structure Post where
  id : UUID
  title : String
  revision : UUID
deriving DecidableEq

/-- The `post_revision` entity: `post` links back to the owning post. -/
structure PostRevision where
  id : UUID
  post : UUID
  content : String
  author : UUID
deriving DecidableEq

/-- `post.PostRecord`: a post and its active revision. -/
structure PostRecord where
  post : Post
  revision : PostRevision
deriving DecidableEq

/-- The SQL statements the two `Save` methods execute, with their
arguments: the post upsert (`INSERT ... ON CONFLICT (id) DO UPDATE`) and
the revision insert. -/
inductive DbOp
  | insertPost (id : UUID) (title : String) (revision : Option UUID)
  | insertRevision (id : UUID) (post : UUID) (content : String) (author : UUID)
deriving DecidableEq

/-- The request's oracles: whether the i-th `conn.Exec` succeeds, and the
i-th `uuid.NewV4()` draw. -/
structure DbEnv where
  execOk : Nat → Bool
  v4 : Nat → UUID

/-- The transaction's observable state: the statements executed so far (in
order) and how many `Exec` and `NewV4` calls happened. -/
structure DbState where
  trace : List DbOp
  execCount : Nat
  v4Count : Nat
deriving DecidableEq

def dbExec (env : DbEnv) (st : DbState) (op : DbOp) : DbState × Bool :=
  ({ trace := st.trace ++ [op], execCount := st.execCount + 1,
     v4Count := st.v4Count }, env.execOk st.execCount)

def newV4 (env : DbEnv) (st : DbState) : DbState × UUID :=
  ({ st with v4Count := st.v4Count + 1 }, env.v4 st.v4Count)

/-- `Post.Save`: draw a fresh id when the id is nil, bind the revision
pointer as NULL when nil, then upsert the post row. -/
def postSave (env : DbEnv) (p : Post) (st : DbState) : Option Post × DbState :=
  let drawn : DbState × Post :=
    if p.id = uuidNil then
      let d := newV4 env st
      (d.1, { p with id := d.2 })
    else (st, p)
  let revArg : Option UUID :=
    if drawn.2.revision = uuidNil then none else some drawn.2.revision
  let ex := dbExec env drawn.1 (DbOp.insertPost drawn.2.id drawn.2.title revArg)
  (if ex.2 then some drawn.2 else none, ex.1)

/-- `PostRevision.Save`: always draws a fresh revision id, then inserts
the revision row. -/
def postRevisionSave (env : DbEnv) (r : PostRevision) (st : DbState) :
    Option PostRevision × DbState :=
  let d := newV4 env st
  let r₁ := { r with id := d.2 }
  let ex := dbExec env d.1 (DbOp.insertRevision r₁.id r₁.post r₁.content r₁.author)
  (if ex.2 then some r₁ else none, ex.1)

/-- `PostRecord.Save`: for a brand-new post (nil id) save the post row
first; point the revision at the post, save the revision; publish the
revision on the post and save the post again. Any `Exec` error aborts. -/
def postRecordSave (env : DbEnv) (pr : PostRecord) (st : DbState) :
    Option PostRecord × DbState :=
  let step₁ : Option Post × DbState :=
    if pr.post.id = uuidNil then postSave env pr.post st else (some pr.post, st)
  match step₁ with
  | (none, st₁) => (none, st₁)
  | (some p₁, st₁) =>
    match postRevisionSave env { pr.revision with post := p₁.id } st₁ with
    | (none, st₂) => (none, st₂)
    | (some r₁, st₂) =>
      match postSave env { p₁ with revision := r₁.id } st₂ with
      | (none, st₃) => (none, st₃)
      | (some p₃, st₃) => (some ⟨p₃, r₁⟩, st₃)

theorem getElem?_append_offset {α : Type} (l m : List α) (k : Nat) :
    (l ++ m)[l.length + k]? = m[k]? := by
  induction l with
  | nil => simp
  | cons a tl ih =>
    have hcons : a :: tl ++ m = a :: (tl ++ m) := rfl
    have hlen : (a :: tl).length + k = (tl.length + k) + 1 := by
      simp [List.length_cons]
      omega
    rw [hcons, hlen, List.getElem?_cons_succ, ih]

/-- C9: when `PostRecord.Save` completes without error, referential
symmetry holds — the post's published-revision pointer equals the saved
revision's id, and that revision's post field equals the post's id — and
for a new post (nil post id) the revision row is inserted strictly before
the post row is updated to reference it. `uuid.NewV4` never returns the
nil UUID (version-4 ids carry fixed nonzero version bits). -/
theorem post_record_save_symmetry (env : DbEnv) (pr pr' : PostRecord)
    (st st' : DbState)
    (hv4 : ∀ n, env.v4 n ≠ uuidNil)
    (h : postRecordSave env pr st = (some pr', st')) :
    pr'.post.revision = pr'.revision.id ∧
    pr'.revision.post = pr'.post.id ∧
    (pr.post.id = uuidNil →
      ∃ i j : Nat, i < j ∧
        st'.trace[i]? = some (DbOp.insertRevision pr'.revision.id pr'.revision.post
          pr'.revision.content pr'.revision.author) ∧
        st'.trace[j]? = some (DbOp.insertPost pr'.post.id pr'.post.title
          (some pr'.revision.id))) := by
  by_cases hnil : pr.post.id = uuidNil
  · cases hok0 : env.execOk st.execCount with
    | false =>
      exfalso
      simp [postRecordSave, postSave, postRevisionSave, newV4, dbExec, hnil, hok0] at h
    | true =>
      cases hok1 : env.execOk (st.execCount + 1) with
      | false =>
        exfalso
        simp [postRecordSave, postSave, postRevisionSave, newV4, dbExec, hnil,
          hok0, hok1] at h
      | true =>
        cases hok2 : env.execOk (st.execCount + 1 + 1) with
        | false =>
          exfalso
          simp [postRecordSave, postSave, postRevisionSave, newV4, dbExec, hnil,
            hok0, hok1, hok2, hv4 st.v4Count, hv4 (st.v4Count + 1)] at h
        | true =>
          simp only [postRecordSave, postSave, postRevisionSave, newV4, dbExec, hnil,
            hok0, hok1, hok2, if_pos rfl, ite_true, hv4 st.v4Count,
            hv4 (st.v4Count + 1), ite_false, if_false] at h
          rw [Prod.mk.injEq, Option.some.injEq] at h
          obtain ⟨hpr, hst⟩ := h
          subst hpr
          subst hst
          refine ⟨rfl, rfl, fun _ => ⟨st.trace.length + 1, st.trace.length + 2,
            by omega, ?_, ?_⟩⟩
          · rw [List.append_assoc, List.append_assoc, getElem?_append_offset]
            rfl
          · rw [List.append_assoc, List.append_assoc, getElem?_append_offset]
            rfl
  · cases hok0 : env.execOk st.execCount with
    | false =>
      exfalso
      simp [postRecordSave, postSave, postRevisionSave, newV4, dbExec, hnil, hok0] at h
    | true =>
      cases hok1 : env.execOk (st.execCount + 1) with
      | false =>
        exfalso
        simp [postRecordSave, postSave, postRevisionSave, newV4, dbExec, hnil,
          hok0, hok1, hv4 st.v4Count] at h
      | true =>
        simp only [postRecordSave, postSave, postRevisionSave, newV4, dbExec, hnil,
          hok0, hok1, hv4 st.v4Count, ite_true, ite_false, if_false] at h
        rw [Prod.mk.injEq, Option.some.injEq] at h
        obtain ⟨hpr, hst⟩ := h
        subst hpr
        subst hst
        exact ⟨rfl, rfl, fun hcon => absurd hcon hnil⟩

/-- A nonzero UUID: the C9 witness's `NewV4` oracle value. -/
def uuidOne : UUID := ⟨1 :: List.replicate 15 0⟩

/-- The C9 witness environment: every `Exec` succeeds, every `NewV4` draw
is the nonzero `uuidOne`. -/
def dbEnvW : DbEnv := ⟨fun _ => true, fun _ => uuidOne⟩

/-- A brand-new post (nil post id, unpublished) with its first revision. -/
def newPostRecord : PostRecord :=
  ⟨⟨uuidNil, "hello", uuidNil⟩, ⟨uuidNil, uuidNil, "body", uuidOne⟩⟩

def dbStateZero : DbState := ⟨[], 0, 0⟩

/-- What saving `newPostRecord` under `dbEnvW` produces. -/
def savedPostRecord : PostRecord :=
  ⟨⟨uuidOne, "hello", uuidOne⟩, ⟨uuidOne, uuidOne, "body", uuidOne⟩⟩

def savedDbState : DbState :=
  ⟨[DbOp.insertPost uuidOne "hello" none,
    DbOp.insertRevision uuidOne uuidOne "body" uuidOne,
    DbOp.insertPost uuidOne "hello" (some uuidOne)], 3, 2⟩

/-- Witness for C9: saving a concrete brand-new post succeeds, the saved
record is referentially symmetric, and the revision insert precedes the
post update that references it in the executed-statement trace. -/
theorem post_record_save_symmetry_witness :
    savedPostRecord.post.revision = savedPostRecord.revision.id ∧
    savedPostRecord.revision.post = savedPostRecord.post.id ∧
    (newPostRecord.post.id = uuidNil →
      ∃ i j : Nat, i < j ∧
        savedDbState.trace[i]? = some (DbOp.insertRevision savedPostRecord.revision.id
          savedPostRecord.revision.post savedPostRecord.revision.content
          savedPostRecord.revision.author) ∧
        savedDbState.trace[j]? = some (DbOp.insertPost savedPostRecord.post.id
          savedPostRecord.post.title (some savedPostRecord.revision.id))) :=
  post_record_save_symmetry dbEnvW newPostRecord savedPostRecord dbStateZero
    savedDbState (fun n => show uuidOne ≠ uuidNil by decide) (by decide)

end Simplesite
